import Mathlib

/-
Verification development for the orange language front end: a lexer
(src/src/lexer.rs) producing a token sequence, and a recursive-descent
parser (src/src/parser.rs) producing statements.  The Rust code is
embedded shallowly: the tokenize loop becomes a recursive function on
the character list, the parser becomes explicit state passing of the
cursor index with an Except error type standing for the fatal aborts.
-/

namespace Orange

/-- Token kinds, mirroring enum TokenType in src/src/lexer.rs. -/
inductive TokenType where
  | Dot | Comma | LeftParenthesis | RightParenthesis | LeftBracket | RightBracket
  | LeftBrace | RightBrace | QuestionMark | Semicolon | Bang
  | Plus | Minus | Asterisk | Slash | Percent | Caret
  | If | While | Do | Else | For | In | Let | Function | Return | Use
  | Identifier | Number | String | Boolean
  | Equal | EqualEqual | Greater | Less | GreaterEqual | LessEqual | BangEqual
  | And | Or
  | EOF
deriving DecidableEq

/-- A lexical token: a kind plus the optional lexeme payload, mirroring
struct Token in src/src/lexer.rs. -/
structure Token where
  token_type : TokenType
  token_name : Option String
deriving DecidableEq

/-- The double-quote character, written by code point so that source text
stays free of embedded quote characters. -/
def dq : Char := Char.ofNat 34

/-- The opening curly brace character, by code point. -/
def lbrace : Char := Char.ofNat 123

/-- The closing curly brace character, by code point. -/
def rbrace : Char := Char.ofNat 125

/-- Inner scan loop of the string-literal arm of Lexer::tokenize
(src/src/lexer.rs lines 175-188): consume characters into the buffer
until a closing quote (consumed but not kept) or end of input; returns
the buffer and the remaining input. -/
def scanString : List Char → List Char × List Char
  | [] => ([], [])
  | c :: rest =>
    if c = dq then ([], rest)
    else (c :: (scanString rest).1, (scanString rest).2)

/-- Continuation test of the identifier arm: alphanumeric or underscore
(src/src/lexer.rs line 195).  The Rust character classes are Unicode;
the embedding models their ASCII behaviour, which is all the claims use. -/
def isIdentContinue (c : Char) : Bool := c.isAlphanum || c = '_'

/-- Inner scan loop of the identifier arm of Lexer::tokenize
(src/src/lexer.rs lines 194-202): peek and consume while alphanumeric
or underscore. -/
def scanIdent : List Char → List Char × List Char
  | [] => ([], [])
  | c :: rest =>
    if isIdentContinue c then (c :: (scanIdent rest).1, (scanIdent rest).2)
    else ([], c :: rest)

/-- Inner scan loop of the number arm of Lexer::tokenize
(src/src/lexer.rs lines 226-239): consume digits, and at most one
decimal point (tracked by seen_dot). -/
def scanNumber (seen_dot : Bool) : List Char → List Char × List Char
  | [] => ([], [])
  | c :: rest =>
    if c.isDigit then (c :: (scanNumber seen_dot rest).1, (scanNumber seen_dot rest).2)
    else if c = '.' && !seen_dot then (c :: (scanNumber true rest).1, (scanNumber true rest).2)
    else ([], c :: rest)

/-- Keyword table of the identifier arm (src/src/lexer.rs lines 204-217):
a scanned run becomes a keyword token, a boolean literal, or an
identifier carrying its text. -/
def keywordToken (buffer : String) : Token :=
  match buffer with
  | "let" => ⟨.Let, none⟩
  | "if" => ⟨.If, none⟩
  | "else" => ⟨.Else, none⟩
  | "while" => ⟨.While, none⟩
  | "do" => ⟨.Do, none⟩
  | "in" => ⟨.In, none⟩
  | "for" => ⟨.For, none⟩
  | "fn" => ⟨.Function, none⟩
  | "return" => ⟨.Return, none⟩
  | "use" => ⟨.Use, none⟩
  | "true" => ⟨.Boolean, some buffer⟩
  | "false" => ⟨.Boolean, some buffer⟩
  | _ => ⟨.Identifier, some buffer⟩

/-- Line-comment arm of Lexer::tokenize (src/src/lexer.rs lines 309-319):
discard characters up to and including the next newline, or to end of
input. -/
def skipComment : List Char → List Char
  | [] => []
  | c :: rest => if c = '\n' then rest else skipComment rest

/-- Prepend a token to the output of the rest of the scan, mirroring
push_token followed by the continuing loop. -/
def emit (t : Token) (r : Option (List Token)) : Option (List Token) :=
  r.map (fun l => t :: l)

theorem scanString_suffix_length (cs : List Char) : (scanString cs).2.length ≤ cs.length := by
  induction cs with
  | nil => simp [scanString]
  | cons c rest ih =>
    simp only [scanString]
    split
    · simp
    · simpa using Nat.le_succ_of_le ih

theorem scanIdent_suffix_length (cs : List Char) : (scanIdent cs).2.length ≤ cs.length := by
  induction cs with
  | nil => simp [scanIdent]
  | cons c rest ih =>
    simp only [scanIdent]
    split
    · simpa using Nat.le_succ_of_le ih
    · simp

theorem scanNumber_suffix_length (cs : List Char) :
    ∀ b2, (scanNumber b2 cs).2.length ≤ cs.length := by
  induction cs with
  | nil => intro b2; simp [scanNumber]
  | cons c rest ih =>
    intro b2
    simp only [scanNumber]
    split
    · simpa using Nat.le_succ_of_le (ih _)
    · split
      · simpa using Nat.le_succ_of_le (ih _)
      · simp

theorem skipComment_length (cs : List Char) : (skipComment cs).length ≤ cs.length := by
  induction cs with
  | nil => simp [skipComment]
  | cons c rest ih =>
    simp only [skipComment]
    split
    · simp
    · exact Nat.le_succ_of_le ih

/-- Embedding of the scan loop of Lexer::tokenize (src/src/lexer.rs
lines 144-333).  The match arms appear in source order; none on an
unknown character models the fatal lexical panic; the row and column
counters are omitted (they feed only the panic diagnostics).  Note the
ampersand and pipe arms: on a matched pair the source calls next twice
after the peek, consuming one extra character (hence tail), and on an
unmatched peek they emit nothing. -/
def tokenizeLoop (cs : List Char) : Option (List Token) :=
  match cs with
  | [] => some [⟨.EOF, none⟩]
  | c :: rest =>
    if c = '.' then emit ⟨.Dot, none⟩ (tokenizeLoop rest)
    else if c = ',' then emit ⟨.Comma, none⟩ (tokenizeLoop rest)
    else if c = '(' then emit ⟨.LeftParenthesis, none⟩ (tokenizeLoop rest)
    else if c = ')' then emit ⟨.RightParenthesis, none⟩ (tokenizeLoop rest)
    else if c = '[' then emit ⟨.LeftBracket, none⟩ (tokenizeLoop rest)
    else if c = ']' then emit ⟨.RightBracket, none⟩ (tokenizeLoop rest)
    else if c = lbrace then emit ⟨.LeftBrace, none⟩ (tokenizeLoop rest)
    else if c = rbrace then emit ⟨.RightBrace, none⟩ (tokenizeLoop rest)
    else if c = '?' then emit ⟨.QuestionMark, none⟩ (tokenizeLoop rest)
    else if c = ';' then emit ⟨.Semicolon, none⟩ (tokenizeLoop rest)
    else if c = '+' then emit ⟨.Plus, none⟩ (tokenizeLoop rest)
    else if c = '-' then emit ⟨.Minus, none⟩ (tokenizeLoop rest)
    else if c = '*' then emit ⟨.Asterisk, none⟩ (tokenizeLoop rest)
    else if c = '/' then emit ⟨.Slash, none⟩ (tokenizeLoop rest)
    else if c = '%' then emit ⟨.Percent, none⟩ (tokenizeLoop rest)
    else if c = '^' then emit ⟨.Caret, none⟩ (tokenizeLoop rest)
    else if c = dq then
      emit ⟨.String, some (String.mk (scanString rest).1)⟩ (tokenizeLoop (scanString rest).2)
    else if c.isAlpha || c = '_' then
      emit (keywordToken (String.mk (c :: (scanIdent rest).1))) (tokenizeLoop (scanIdent rest).2)
    else if c.isDigit then
      emit ⟨.Number, some (String.mk (c :: (scanNumber false rest).1))⟩
        (tokenizeLoop (scanNumber false rest).2)
    else if c = '!' then
      if rest.head? = some '=' then emit ⟨.BangEqual, none⟩ (tokenizeLoop rest.tail)
      else emit ⟨.Bang, none⟩ (tokenizeLoop rest)
    else if c = '=' then
      if rest.head? = some '=' then emit ⟨.EqualEqual, none⟩ (tokenizeLoop rest.tail)
      else emit ⟨.Equal, none⟩ (tokenizeLoop rest)
    else if c = '>' then
      if rest.head? = some '=' then emit ⟨.GreaterEqual, none⟩ (tokenizeLoop rest.tail)
      else emit ⟨.Greater, none⟩ (tokenizeLoop rest)
    else if c = '<' then
      if rest.head? = some '=' then emit ⟨.LessEqual, none⟩ (tokenizeLoop rest.tail)
      else emit ⟨.Less, none⟩ (tokenizeLoop rest)
    else if c.isWhitespace then tokenizeLoop rest
    else if c = '&' then
      if rest.head? = some '&' then emit ⟨.And, none⟩ (tokenizeLoop rest.tail.tail)
      else tokenizeLoop rest
    else if c = '|' then
      if rest.head? = some '|' then emit ⟨.Or, none⟩ (tokenizeLoop rest.tail.tail)
      else tokenizeLoop rest
    else if c = '#' then tokenizeLoop (skipComment rest)
    else none
termination_by cs.length
decreasing_by
  all_goals simp_wf
  all_goals try omega
  all_goals try (have h1 := scanString_suffix_length rest; omega)
  all_goals try (have h1 := scanIdent_suffix_length rest; omega)
  all_goals try (have h1 := scanNumber_suffix_length rest false; omega)
  all_goals try (have h1 := skipComment_length rest; omega)

/-- Lexer entry point: tokenize over the characters of the source text. -/
def tokenize (source : String) : Option (List Token) :=
  tokenizeLoop source.data

/-- Literal values, mirroring enum Literal in src/src/parser.rs.  The
source parses the number lexeme into an f64; floating-point values play
no role in any claim, so the embedding keeps the lexeme text as the
payload.  The Rust String constructor is named Str here to avoid a
clash with the String type. -/
inductive Literal where
  | Number (lexeme : String)
  | Str (s : String)
  | Boolean (b : Bool)
deriving DecidableEq

/-- Expression nodes, mirroring enum Expression in src/src/parser.rs. -/
inductive Expression where
  | Literal (l : Literal)
  | Variable (name : String)
  | Grouping (e : Expression)
  | Unary (operator : TokenType) (rhs : Expression)
  | Binary (lhs : Expression) (operator : TokenType) (rhs : Expression)
deriving DecidableEq

/-- Statement nodes, mirroring enum Statement in src/src/parser.rs.  The
Rust Expression constructor is named Expr here to avoid a clash with
the Expression type. -/
inductive Statement where
  | Declaration (variable_name : String) (expression : Expression)
  | Assignment (variable_name : String) (expression : Expression)
  | Expr (e : Expression)
  | Loop (loop_type : TokenType) (condition : Option Expression) (body : List Statement)

/-- Fatal parser conditions.  The Rust parser aborts the process; the
embedding returns these as Except errors: expected is the expect
mismatch, expectedExpression the primary-expression failure,
unwrapNone an Option unwrap of a payload-free token, unimplemented the
deliberate abort at a loop completion point, and fuel marks recursion
budget exhaustion of the embedding (never hit at sufficient fuel). -/
inductive PErr where
  | expected (expectedKind actualKind : TokenType)
  | expectedExpression (actualKind : TokenType)
  | unwrapNone
  | unimplemented
  | fuel
deriving DecidableEq

/-- Parser::current (src/src/parser.rs lines 91-93): the token at the
cursor.  The source indexes the vector directly and would abort out of
bounds; under the cursor invariant proved below the index stays in
bounds whenever the token list is non-empty, so the default is never
consulted then. -/
def current (ts : List Token) (i : Nat) : Token :=
  ts.getD i ⟨.EOF, none⟩

/-- Parser::peek (src/src/parser.rs lines 95-97). -/
def peek (ts : List Token) (i : Nat) : Option Token :=
  ts.get? (i + 1)

/-- Parser::advance (src/src/parser.rs lines 116-122): step the cursor
forward, a no-op (with only an eprintln diagnostic) at the last token. -/
def advance (ts : List Token) (i : Nat) : Nat :=
  if (peek ts i).isSome then i + 1 else i

/-- Parser::expect (src/src/parser.rs lines 103-113): advance when the
current token kind matches, abort otherwise. -/
def expect (ts : List Token) (i : Nat) (token_type : TokenType) : Except PErr Nat :=
  if (current ts i).token_type = token_type then Except.ok (advance ts i)
  else Except.error (.expected token_type (current ts i).token_type)

/-- Operator test of the equality tier (src/src/parser.rs lines 213-216). -/
def isEqualityOp : TokenType → Bool
  | .BangEqual | .EqualEqual => true
  | _ => false

/-- Operator test of the comparison tier (src/src/parser.rs lines 234-237). -/
def isComparisonOp : TokenType → Bool
  | .Greater | .GreaterEqual | .Less | .LessEqual => true
  | _ => false

/-- Operator test of the term tier (src/src/parser.rs lines 255-258). -/
def isTermOp : TokenType → Bool
  | .Plus | .Minus => true
  | _ => false

/-- Operator test of the factor tier (src/src/parser.rs lines 276-279). -/
def isFactorOp : TokenType → Bool
  | .Asterisk | .Slash | .Percent => true
  | _ => false

/-- Operator test of the unary tier (src/src/parser.rs lines 295-298). -/
def isUnaryOp : TokenType → Bool
  | .Minus | .Bang => true
  | _ => false

mutual

/-- Parser::primary (src/src/parser.rs lines 312-344). -/
def primary : Nat → List Token → Nat → Except PErr (Expression × Nat)
  | 0, _, _ => Except.error .fuel
  | fuel + 1, ts, i =>
    match (current ts i).token_type with
    | .Number =>
      match (current ts i).token_name with
      | some value => Except.ok (.Literal (.Number value), advance ts i)
      | none => Except.error .unwrapNone
    | .Identifier =>
      match (current ts i).token_name with
      | some name => Except.ok (.Variable name, advance ts i)
      | none => Except.error .unwrapNone
    | .LeftParenthesis => do
      let r ← expression fuel ts (advance ts i)
      let j ← expect ts r.2 .RightParenthesis
      Except.ok (.Grouping r.1, j)
    | t => Except.error (.expectedExpression t)
termination_by structural fuel => fuel

/-- Parser::unary (src/src/parser.rs lines 294-310). -/
def unary : Nat → List Token → Nat → Except PErr (Expression × Nat)
  | 0, _, _ => Except.error .fuel
  | fuel + 1, ts, i =>
    if isUnaryOp (current ts i).token_type then do
      let r ← unary fuel ts (advance ts i)
      Except.ok (.Unary (current ts i).token_type r.1, r.2)
    else
      primary fuel ts i
termination_by structural fuel => fuel

/-- Parser::factor (src/src/parser.rs lines 273-292), entry. -/
def factor : Nat → List Token → Nat → Except PErr (Expression × Nat)
  | 0, _, _ => Except.error .fuel
  | fuel + 1, ts, i => do
    let r ← unary fuel ts i
    factorLoop fuel ts r.2 r.1
termination_by structural fuel => fuel

/-- The while loop of Parser::factor, accumulating left-associatively. -/
def factorLoop : Nat → List Token → Nat → Expression → Except PErr (Expression × Nat)
  | 0, _, _, _ => Except.error .fuel
  | fuel + 1, ts, i, acc =>
    if isFactorOp (current ts i).token_type then do
      let r ← unary fuel ts (advance ts i)
      factorLoop fuel ts r.2 (.Binary acc (current ts i).token_type r.1)
    else
      Except.ok (acc, i)
termination_by structural fuel => fuel

/-- Parser::term (src/src/parser.rs lines 252-271), entry. -/
def term : Nat → List Token → Nat → Except PErr (Expression × Nat)
  | 0, _, _ => Except.error .fuel
  | fuel + 1, ts, i => do
    let r ← factor fuel ts i
    termLoop fuel ts r.2 r.1
termination_by structural fuel => fuel

/-- The while loop of Parser::term. -/
def termLoop : Nat → List Token → Nat → Expression → Except PErr (Expression × Nat)
  | 0, _, _, _ => Except.error .fuel
  | fuel + 1, ts, i, acc =>
    if isTermOp (current ts i).token_type then do
      let r ← factor fuel ts (advance ts i)
      termLoop fuel ts r.2 (.Binary acc (current ts i).token_type r.1)
    else
      Except.ok (acc, i)
termination_by structural fuel => fuel

/-- Parser::comparison (src/src/parser.rs lines 231-250), entry. -/
def comparison : Nat → List Token → Nat → Except PErr (Expression × Nat)
  | 0, _, _ => Except.error .fuel
  | fuel + 1, ts, i => do
    let r ← term fuel ts i
    comparisonLoop fuel ts r.2 r.1
termination_by structural fuel => fuel

/-- The while loop of Parser::comparison. -/
def comparisonLoop : Nat → List Token → Nat → Expression → Except PErr (Expression × Nat)
  | 0, _, _, _ => Except.error .fuel
  | fuel + 1, ts, i, acc =>
    if isComparisonOp (current ts i).token_type then do
      let r ← term fuel ts (advance ts i)
      comparisonLoop fuel ts r.2 (.Binary acc (current ts i).token_type r.1)
    else
      Except.ok (acc, i)
termination_by structural fuel => fuel

/-- Parser::equality (src/src/parser.rs lines 210-229), entry. -/
def equality : Nat → List Token → Nat → Except PErr (Expression × Nat)
  | 0, _, _ => Except.error .fuel
  | fuel + 1, ts, i => do
    let r ← comparison fuel ts i
    equalityLoop fuel ts r.2 r.1
termination_by structural fuel => fuel

/-- The while loop of Parser::equality. -/
def equalityLoop : Nat → List Token → Nat → Expression → Except PErr (Expression × Nat)
  | 0, _, _, _ => Except.error .fuel
  | fuel + 1, ts, i, acc =>
    if isEqualityOp (current ts i).token_type then do
      let r ← comparison fuel ts (advance ts i)
      equalityLoop fuel ts r.2 (.Binary acc (current ts i).token_type r.1)
    else
      Except.ok (acc, i)
termination_by structural fuel => fuel

/-- Parser::expression (src/src/parser.rs lines 206-208). -/
def expression : Nat → List Token → Nat → Except PErr (Expression × Nat)
  | 0, _, _ => Except.error .fuel
  | fuel + 1, ts, i => equality fuel ts i
termination_by structural fuel => fuel

end

/-- Parser::assignment (src/src/parser.rs lines 200-204): expect an
identifier, expect an equal sign, then parse the right-hand expression. -/
def assignment : Nat → List Token → Nat → Except PErr (Expression × Nat)
  | 0, _, _ => Except.error .fuel
  | fuel + 1, ts, i => do
    let i1 ← expect ts i .Identifier
    let i2 ← expect ts i1 .Equal
    expression fuel ts i2

/-- Parser::declaration (src/src/parser.rs lines 190-198): advance past
the let keyword, read the bound name from the token at the cursor
(unwrap of its payload), then parse an assignment. -/
def declaration : Nat → List Token → Nat → Except PErr (Statement × Nat)
  | 0, _, _ => Except.error .fuel
  | fuel + 1, ts, i =>
    match (current ts (advance ts i)).token_name with
    | some name => do
      let r ← assignment fuel ts (advance ts i)
      Except.ok (.Declaration name r.1, r.2)
    | none => Except.error .unwrapNone

mutual

/-- Parser::statement (src/src/parser.rs lines 138-188).  Note the
Identifier arm: the Assignment node's variable_name is read from the
token at the cursor after the trailing semicolon has been consumed,
not from the leading identifier.  The For and While arms recognize the
loop form and then abort (the source reaches an unconditional panic),
so no Loop node is ever returned. -/
def statement : Nat → List Token → Nat → Except PErr (Statement × Nat)
  | 0, _, _ => Except.error .fuel
  | fuel + 1, ts, i =>
    match (current ts i).token_type with
    | .Let => do
      let r ← declaration fuel ts i
      let j ← expect ts r.2 .Semicolon
      Except.ok (r.1, j)
    | .Identifier => do
      let r ← assignment fuel ts i
      let j ← expect ts r.2 .Semicolon
      match (current ts j).token_name with
      | some name => Except.ok (.Assignment name r.1, j)
      | none => Except.error .unwrapNone
    | .For => do
      let r1 ← expression fuel ts (advance ts i)
      let j1 ← expect ts r1.2 .In
      let r2 ← expression fuel ts j1
      let j2 ← expect ts r2.2 .Comma
      let r3 ← expression fuel ts j2
      let j3 ← expect ts r3.2 .LeftBrace
      let _ ← statementsInBody fuel ts j3
      Except.error .unimplemented
    | .While => do
      let _ ← expression fuel ts (advance ts i)
      Except.error .unimplemented
    | _ => do
      let r ← expression fuel ts i
      let j ← expect ts r.2 .Semicolon
      Except.ok (.Expr r.1, j)
termination_by structural fuel => fuel

/-- The loop-body while loop inside the For arm of Parser::statement
(src/src/parser.rs lines 166-168): parse statements until the cursor
sees a closing brace. -/
def statementsInBody : Nat → List Token → Nat → Except PErr (List Statement × Nat)
  | 0, _, _ => Except.error .fuel
  | fuel + 1, ts, i =>
    if (current ts i).token_type = .RightBrace then Except.ok ([], i)
    else do
      let r ← statement fuel ts i
      let rs ← statementsInBody fuel ts r.2
      Except.ok (r.1 :: rs.1, rs.2)
termination_by structural fuel => fuel

end

/-- Parser::program (src/src/parser.rs lines 124-132): parse statements
until the end-of-input token.  The source only debug-prints the
collected vector; the embedding returns it together with the final
cursor index. -/
def program : Nat → List Token → Nat → Except PErr (List Statement × Nat)
  | 0, _, _ => Except.error .fuel
  | fuel + 1, ts, i =>
    if (current ts i).token_type = .EOF then Except.ok ([], i)
    else do
      let r ← statement fuel ts i
      let rs ← program fuel ts r.2
      Except.ok (r.1 :: rs.1, rs.2)

/-- Parser::new plus Parser::parse: a parse starts at cursor index 0. -/
def parse (fuel : Nat) (ts : List Token) : Except PErr (List Statement × Nat) :=
  program fuel ts 0

/-- Cursor-index facts holding at a given fuel: every parsing operation
that returns normally has moved the cursor monotonically and kept it
inside the token list. -/
structure IndexInv (fuel : Nat) : Prop where
  primary_mono : ∀ ts i r, i < ts.length →
    primary fuel ts i = Except.ok r → i ≤ r.2 ∧ r.2 < ts.length
  unary_mono : ∀ ts i r, i < ts.length →
    unary fuel ts i = Except.ok r → i ≤ r.2 ∧ r.2 < ts.length
  factor_mono : ∀ ts i r, i < ts.length →
    factor fuel ts i = Except.ok r → i ≤ r.2 ∧ r.2 < ts.length
  factorLoop_mono : ∀ ts i acc r, i < ts.length →
    factorLoop fuel ts i acc = Except.ok r → i ≤ r.2 ∧ r.2 < ts.length
  term_mono : ∀ ts i r, i < ts.length →
    term fuel ts i = Except.ok r → i ≤ r.2 ∧ r.2 < ts.length
  termLoop_mono : ∀ ts i acc r, i < ts.length →
    termLoop fuel ts i acc = Except.ok r → i ≤ r.2 ∧ r.2 < ts.length
  comparison_mono : ∀ ts i r, i < ts.length →
    comparison fuel ts i = Except.ok r → i ≤ r.2 ∧ r.2 < ts.length
  comparisonLoop_mono : ∀ ts i acc r, i < ts.length →
    comparisonLoop fuel ts i acc = Except.ok r → i ≤ r.2 ∧ r.2 < ts.length
  equality_mono : ∀ ts i r, i < ts.length →
    equality fuel ts i = Except.ok r → i ≤ r.2 ∧ r.2 < ts.length
  equalityLoop_mono : ∀ ts i acc r, i < ts.length →
    equalityLoop fuel ts i acc = Except.ok r → i ≤ r.2 ∧ r.2 < ts.length
  expression_mono : ∀ ts i r, i < ts.length →
    expression fuel ts i = Except.ok r → i ≤ r.2 ∧ r.2 < ts.length
  assignment_mono : ∀ ts i r, i < ts.length →
    assignment fuel ts i = Except.ok r → i ≤ r.2 ∧ r.2 < ts.length
  declaration_mono : ∀ ts i r, i < ts.length →
    declaration fuel ts i = Except.ok r → i ≤ r.2 ∧ r.2 < ts.length
  statement_mono : ∀ ts i r, i < ts.length →
    statement fuel ts i = Except.ok r → i ≤ r.2 ∧ r.2 < ts.length
  statementsInBody_mono : ∀ ts i r, i < ts.length →
    statementsInBody fuel ts i = Except.ok r → i ≤ r.2 ∧ r.2 < ts.length
  program_mono : ∀ ts i r, i < ts.length →
    program fuel ts i = Except.ok r → i ≤ r.2 ∧ r.2 < ts.length

/-- A successful Except bind splits into a successful first step and a
successful continuation. -/
theorem bind_ok {α β : Type} {x : Except PErr α} {f : α → Except PErr β} {b : β} :
    x >>= f = Except.ok b ↔ ∃ a, x = Except.ok a ∧ f a = Except.ok b := by
  cases x <;> simp [Bind.bind, Except.bind]

/-- A successful emit splits into a successful rest of the scan plus the
prepended token. -/
theorem emit_eq_some {t : Token} {r : Option (List Token)} {ts : List Token} :
    emit t r = some ts ↔ ∃ rs, r = some rs ∧ ts = t :: rs := by
  cases r <;> simp [emit]
  exact eq_comm

theorem get?_isSome_iff {α : Type} : ∀ (l : List α) (n : Nat),
    (l.get? n).isSome ↔ n < l.length := by
  intro l
  induction l with
  | nil => intro n; simp [List.get?]
  | cons a t ih => intro n; cases n <;> simp [List.get?, ← List.get?_eq_getElem?, ih]

theorem advance_ge (ts : List Token) (i : Nat) : i ≤ advance ts i := by
  simp only [advance]
  split <;> omega

theorem advance_bound (ts : List Token) (i : Nat) (h : i < ts.length) :
    advance ts i < ts.length := by
  simp only [advance, peek]
  split
  · next hs => exact (get?_isSome_iff ts (i + 1)).mp hs
  · exact h

theorem expect_ok {ts : List Token} {i : Nat} {tt : TokenType} {j : Nat}
    (h : expect ts i tt = Except.ok j) : j = advance ts i := by
  simp only [expect] at h
  split at h
  · exact (Except.ok.injEq _ _).mp h.symm
  · exact Except.noConfusion h

theorem expect_ge {ts : List Token} {i : Nat} {tt : TokenType} {j : Nat}
    (h : expect ts i tt = Except.ok j) : i ≤ j := by
  rw [expect_ok h]; exact advance_ge ts i

theorem expect_bound {ts : List Token} {i : Nat} {tt : TokenType} {j : Nat}
    (hi : i < ts.length) (h : expect ts i tt = Except.ok j) : j < ts.length := by
  rw [expect_ok h]; exact advance_bound ts i hi

end Orange

namespace Orange

set_option maxHeartbeats 1000000 in
theorem parserMono : ∀ fuel, IndexInv fuel := by
  intro fuel
  induction fuel with
  | zero =>
    constructor <;>
      · intros ts i
        intros
        simp_all [primary, unary, factor, factorLoop, term, termLoop, comparison,
          comparisonLoop, equality, equalityLoop, expression, assignment, declaration,
          statement, statementsInBody, program]
  | succ n ih =>
    constructor
    case primary_mono =>
      intro ts i r hi h
      simp only [primary] at h
      split at h
      · split at h
        · cases h
          exact ⟨advance_ge ts i, advance_bound ts i hi⟩
        · exact Except.noConfusion h
      · split at h
        · cases h
          exact ⟨advance_ge ts i, advance_bound ts i hi⟩
        · exact Except.noConfusion h
      · rw [bind_ok] at h
        obtain ⟨a, h1, h2⟩ := h
        rw [bind_ok] at h2
        obtain ⟨j, h3, h4⟩ := h2
        cases h4
        have m1 := ih.expression_mono ts (advance ts i) a (advance_bound ts i hi) h1
        have m2 := expect_ge h3
        have m3 := expect_bound m1.2 h3
        exact ⟨le_trans (advance_ge ts i) (le_trans m1.1 m2), m3⟩
      · exact Except.noConfusion h
    case unary_mono =>
      intro ts i r hi h
      simp only [unary] at h
      split at h
      · rw [bind_ok] at h
        obtain ⟨a, h1, h2⟩ := h
        cases h2
        have m1 := ih.unary_mono ts (advance ts i) a (advance_bound ts i hi) h1
        exact ⟨le_trans (advance_ge ts i) m1.1, m1.2⟩
      · exact ih.primary_mono ts i r hi h
    case factor_mono =>
      intro ts i r hi h
      simp only [factor] at h
      rw [bind_ok] at h
      obtain ⟨a, h1, h2⟩ := h
      have m1 := ih.unary_mono ts i a hi h1
      have m2 := ih.factorLoop_mono ts a.2 a.1 r m1.2 h2
      exact ⟨le_trans m1.1 m2.1, m2.2⟩
    case factorLoop_mono =>
      intro ts i acc r hi h
      simp only [factorLoop] at h
      split at h
      · rw [bind_ok] at h
        obtain ⟨a, h1, h2⟩ := h
        have m1 := ih.unary_mono ts (advance ts i) a (advance_bound ts i hi) h1
        have m2 := ih.factorLoop_mono ts a.2 _ r m1.2 h2
        exact ⟨le_trans (advance_ge ts i) (le_trans m1.1 m2.1), m2.2⟩
      · cases h
        exact ⟨le_refl i, hi⟩
    case term_mono =>
      intro ts i r hi h
      simp only [term] at h
      rw [bind_ok] at h
      obtain ⟨a, h1, h2⟩ := h
      have m1 := ih.factor_mono ts i a hi h1
      have m2 := ih.termLoop_mono ts a.2 a.1 r m1.2 h2
      exact ⟨le_trans m1.1 m2.1, m2.2⟩
    case termLoop_mono =>
      intro ts i acc r hi h
      simp only [termLoop] at h
      split at h
      · rw [bind_ok] at h
        obtain ⟨a, h1, h2⟩ := h
        have m1 := ih.factor_mono ts (advance ts i) a (advance_bound ts i hi) h1
        have m2 := ih.termLoop_mono ts a.2 _ r m1.2 h2
        exact ⟨le_trans (advance_ge ts i) (le_trans m1.1 m2.1), m2.2⟩
      · cases h
        exact ⟨le_refl i, hi⟩
    case comparison_mono =>
      intro ts i r hi h
      simp only [comparison] at h
      rw [bind_ok] at h
      obtain ⟨a, h1, h2⟩ := h
      have m1 := ih.term_mono ts i a hi h1
      have m2 := ih.comparisonLoop_mono ts a.2 a.1 r m1.2 h2
      exact ⟨le_trans m1.1 m2.1, m2.2⟩
    case comparisonLoop_mono =>
      intro ts i acc r hi h
      simp only [comparisonLoop] at h
      split at h
      · rw [bind_ok] at h
        obtain ⟨a, h1, h2⟩ := h
        have m1 := ih.term_mono ts (advance ts i) a (advance_bound ts i hi) h1
        have m2 := ih.comparisonLoop_mono ts a.2 _ r m1.2 h2
        exact ⟨le_trans (advance_ge ts i) (le_trans m1.1 m2.1), m2.2⟩
      · cases h
        exact ⟨le_refl i, hi⟩
    case equality_mono =>
      intro ts i r hi h
      simp only [equality] at h
      rw [bind_ok] at h
      obtain ⟨a, h1, h2⟩ := h
      have m1 := ih.comparison_mono ts i a hi h1
      have m2 := ih.equalityLoop_mono ts a.2 a.1 r m1.2 h2
      exact ⟨le_trans m1.1 m2.1, m2.2⟩
    case equalityLoop_mono =>
      intro ts i acc r hi h
      simp only [equalityLoop] at h
      split at h
      · rw [bind_ok] at h
        obtain ⟨a, h1, h2⟩ := h
        have m1 := ih.comparison_mono ts (advance ts i) a (advance_bound ts i hi) h1
        have m2 := ih.equalityLoop_mono ts a.2 _ r m1.2 h2
        exact ⟨le_trans (advance_ge ts i) (le_trans m1.1 m2.1), m2.2⟩
      · cases h
        exact ⟨le_refl i, hi⟩
    case expression_mono =>
      intro ts i r hi h
      simp only [expression] at h
      exact ih.equality_mono ts i r hi h
    case assignment_mono =>
      intro ts i r hi h
      simp only [assignment] at h
      rw [bind_ok] at h
      obtain ⟨j1, h1, h⟩ := h
      rw [bind_ok] at h
      obtain ⟨j2, h2, h3⟩ := h
      have b1 := expect_bound hi h1
      have b2 := expect_bound b1 h2
      have m3 := ih.expression_mono ts j2 r b2 h3
      exact ⟨le_trans (expect_ge h1) (le_trans (expect_ge h2) m3.1), m3.2⟩
    case declaration_mono =>
      intro ts i r hi h
      simp only [declaration] at h
      split at h
      · rw [bind_ok] at h
        obtain ⟨a, h1, h2⟩ := h
        cases h2
        have m1 := ih.assignment_mono ts (advance ts i) a (advance_bound ts i hi) h1
        exact ⟨le_trans (advance_ge ts i) m1.1, m1.2⟩
      · exact Except.noConfusion h
    case statement_mono =>
      intro ts i r hi h
      simp only [statement] at h
      split at h
      · rw [bind_ok] at h
        obtain ⟨a, h1, h⟩ := h
        rw [bind_ok] at h
        obtain ⟨j, h2, h3⟩ := h
        cases h3
        have m1 := ih.declaration_mono ts i a hi h1
        exact ⟨le_trans m1.1 (expect_ge h2), expect_bound m1.2 h2⟩
      · rw [bind_ok] at h
        obtain ⟨a, h1, h⟩ := h
        rw [bind_ok] at h
        obtain ⟨j, h2, h3⟩ := h
        split at h3
        · cases h3
          have m1 := ih.assignment_mono ts i a hi h1
          exact ⟨le_trans m1.1 (expect_ge h2), expect_bound m1.2 h2⟩
        · exact Except.noConfusion h3
      · simp only [bind_ok] at h
        obtain ⟨a1, h1, j1, h2, a2, h3, j2, h4, a3, h5, j3, h6, a4, h7, h⟩ := h
        exact Except.noConfusion h
      · rw [bind_ok] at h
        obtain ⟨a, h1, h2⟩ := h
        exact Except.noConfusion h2
      · rw [bind_ok] at h
        obtain ⟨a, h1, h⟩ := h
        rw [bind_ok] at h
        obtain ⟨j, h2, h3⟩ := h
        cases h3
        have m1 := ih.expression_mono ts i a hi h1
        exact ⟨le_trans m1.1 (expect_ge h2), expect_bound m1.2 h2⟩
    case statementsInBody_mono =>
      intro ts i r hi h
      simp only [statementsInBody] at h
      split at h
      · cases h
        exact ⟨le_refl i, hi⟩
      · rw [bind_ok] at h
        obtain ⟨a, h1, h⟩ := h
        rw [bind_ok] at h
        obtain ⟨b, h2, h3⟩ := h
        cases h3
        have m1 := ih.statement_mono ts i a hi h1
        have m2 := ih.statementsInBody_mono ts a.2 b m1.2 h2
        exact ⟨le_trans m1.1 m2.1, m2.2⟩
    case program_mono =>
      intro ts i r hi h
      simp only [program] at h
      split at h
      · cases h
        exact ⟨le_refl i, hi⟩
      · rw [bind_ok] at h
        obtain ⟨a, h1, h⟩ := h
        rw [bind_ok] at h
        obtain ⟨b, h2, h3⟩ := h
        cases h3
        have m1 := ih.statement_mono ts i a hi h1
        have m2 := ih.program_mono ts a.2 b m1.2 h2
        exact ⟨le_trans m1.1 m2.1, m2.2⟩

end Orange

namespace Orange

theorem keywordToken_ne_EOF (s : String) : (keywordToken s).token_type ≠ TokenType.EOF := by
  simp only [keywordToken]
  split <;> simp

theorem tail_length_le {α : Type} (l : List α) : l.tail.length ≤ l.length := by
  simp [List.length_tail]

set_option maxHeartbeats 4000000 in
/-- Shape of every successful scan output: some non-EOF tokens followed
by exactly one end-of-input token. -/
theorem tokenizeLoop_shape : ∀ cs ts, tokenizeLoop cs = some ts →
    ∃ pre, ts = pre ++ [Token.mk TokenType.EOF none] ∧
      ∀ t ∈ pre, t.token_type ≠ TokenType.EOF := by
  intro cs
  induction cs using tokenizeLoop.induct
  all_goals intro ts hts
  all_goals rw [tokenizeLoop] at hts
  all_goals try simp only [*, if_true, if_false, ite_true, ite_false,
    Bool.false_eq_true, Bool.true_eq_false, not_false_eq_true, not_true_eq_false] at hts
  all_goals first
    | exact Option.noConfusion hts
    | (injection hts with h
       exact ⟨[], h.symm, by simp⟩)
    | (rename_i ih
       exact ih ts hts)
    | (rename_i ih
       rw [emit_eq_some] at hts
       obtain ⟨rs, h1, h2⟩ := hts
       obtain ⟨pre, hpre, hne⟩ := ih rs h1
       subst h2
       subst hpre
       refine ⟨_ :: pre, rfl, ?_⟩
       intro t ht
       rcases List.mem_cons.mp ht with hh | hh
       · subst hh
         first
           | exact keywordToken_ne_EOF _
           | simp
       · exact hne t hh)

end Orange

namespace Orange

/-- A string scan with no closing quote in the input consumes everything
and leaves nothing. -/
theorem scanString_no_quote : ∀ rest : List Char, dq ∉ rest → scanString rest = (rest, []) := by
  intro rest
  induction rest with
  | nil => intro h; simp [scanString]
  | cons c rs ih =>
    intro h
    rw [List.mem_cons] at h
    push_neg at h
    simp [scanString, ih h.2, Ne.symm h.1]

/-- A lone ampersand produces nothing: the scan continues on the rest. -/
theorem amp_dropped (rest : List Char) (h : rest.head? ≠ some '&') :
    tokenizeLoop ('&' :: rest) = tokenizeLoop rest := by
  rw [tokenizeLoop]
  simp [h, dq, lbrace, rbrace]

/-- A lone pipe produces nothing: the scan continues on the rest. -/
theorem pipe_dropped (rest : List Char) (h : rest.head? ≠ some '|') :
    tokenizeLoop ('|' :: rest) = tokenizeLoop rest := by
  rw [tokenizeLoop]
  simp [h, dq, lbrace, rbrace]

end Orange

namespace Orange

/-- C4 support: Parser::declaration only ever returns a Declaration node. -/
theorem declaration_not_loop (fuel : Nat) (ts : List Token) (i : Nat)
    (lt : TokenType) (c : Option Expression) (b : List Statement) (j : Nat) :
    declaration fuel ts i ≠ Except.ok (Statement.Loop lt c b, j) := by
  intro hok
  cases fuel with
  | zero => simp [declaration] at hok
  | succ n =>
    simp only [declaration] at hok
    split at hok
    · rw [bind_ok] at hok
      obtain ⟨a, h1, h2⟩ := hok
      simp at h2
    · exact Except.noConfusion hok

end Orange

namespace Orange

/-- C4 support: Parser::statement never returns a Loop node, whatever
the input tokens. -/
theorem statement_not_loop (fuel : Nat) (ts : List Token) (i : Nat)
    (lt : TokenType) (c : Option Expression) (b : List Statement) (j : Nat) :
    statement fuel ts i ≠ Except.ok (Statement.Loop lt c b, j) := by
  intro hok
  cases fuel with
  | zero => simp [statement] at hok
  | succ n =>
    simp only [statement] at hok
    split at hok
    · rw [bind_ok] at hok
      obtain ⟨a, h1, h⟩ := hok
      rw [bind_ok] at h
      obtain ⟨j2, h2, h3⟩ := h
      have hfst : a.1 = Statement.Loop lt c b :=
        congrArg Prod.fst ((Except.ok.injEq _ _).mp h3)
      have ha : a = (Statement.Loop lt c b, a.2) := Prod.ext hfst rfl
      rw [ha] at h1
      exact declaration_not_loop n ts i lt c b a.2 h1
    · rw [bind_ok] at hok
      obtain ⟨a, h1, h⟩ := hok
      rw [bind_ok] at h
      obtain ⟨j2, h2, h3⟩ := h
      split at h3
      · simp at h3
      · exact Except.noConfusion h3
    · simp only [bind_ok] at hok
      obtain ⟨a1, h1, j1, h2, a2, h3, j2, h4, a3, h5, j3, h6, a4, h7, h⟩ := hok
      exact Except.noConfusion h
    · rw [bind_ok] at hok
      obtain ⟨a, h1, h2⟩ := hok
      exact Except.noConfusion h2
    · rw [bind_ok] at hok
      obtain ⟨a, h1, h⟩ := hok
      rw [bind_ok] at h
      obtain ⟨j2, h2, h3⟩ := h
      simp at h3

end Orange

namespace Orange

/-- C1: the claim says an accepted assignment statement's variable_name
equals the lexeme of the leading identifier token.  The code instead
reads the name from the token after the consumed semicolon: parsing the
statement at the head of the tokens of x = 1; y = 2; produces an
Assignment named y, not x. -/
theorem assignment_name_read_after_semicolon :
    tokenize "x = 1; y = 2;" =
      some [⟨.Identifier, some "x"⟩, ⟨.Equal, none⟩, ⟨.Number, some "1"⟩, ⟨.Semicolon, none⟩,
        ⟨.Identifier, some "y"⟩, ⟨.Equal, none⟩, ⟨.Number, some "2"⟩, ⟨.Semicolon, none⟩,
        ⟨.EOF, none⟩] ∧
    statement 32 [⟨.Identifier, some "x"⟩, ⟨.Equal, none⟩, ⟨.Number, some "1"⟩,
        ⟨.Semicolon, none⟩, ⟨.Identifier, some "y"⟩, ⟨.Equal, none⟩, ⟨.Number, some "2"⟩,
        ⟨.Semicolon, none⟩, ⟨.EOF, none⟩] 0 =
      Except.ok (Statement.Assignment "y" (Expression.Literal (Literal.Number "1")), 4) ∧
    "y" ≠ "x" := by
  refine ⟨?_, rfl, by decide⟩
  simp [tokenize, tokenizeLoop, scanNumber, scanIdent, isIdentContinue, keywordToken,
    emit, dq, lbrace, rbrace]

/-- C2: the claim says every multi-character operator consumes exactly
its two characters.  For the ampersand pair the scanner consumes one
character beyond the operator: tokenizing the ampersand pair followed
by x swallows the x (which alone would lex as an identifier token). -/
theorem and_op_consumes_extra_char :
    tokenize "&&x" = some [⟨.And, none⟩, ⟨.EOF, none⟩] ∧
    tokenize "||x" = some [⟨.Or, none⟩, ⟨.EOF, none⟩] ∧
    tokenize "x" = some [⟨.Identifier, some "x"⟩, ⟨.EOF, none⟩] ∧
    tokenize "&&x" ≠ some [⟨.And, none⟩, ⟨.Identifier, some "x"⟩, ⟨.EOF, none⟩] := by
  refine ⟨?ha, ?hb, ?hc, ?hd⟩
  case ha => simp [tokenize, tokenizeLoop, emit, dq, lbrace, rbrace]
  case hb => simp [tokenize, tokenizeLoop, emit, dq, lbrace, rbrace]
  case hc =>
    simp [tokenize, tokenizeLoop, scanIdent, isIdentContinue, keywordToken, emit,
      dq, lbrace, rbrace]
  case hd =>
    simp [tokenize, tokenizeLoop, emit, dq, lbrace, rbrace]

end Orange

namespace Orange

/-- C3 counterexample: the claim says tokenizing 1.2.3 yields a number
token 1.2 immediately followed by a number token .3; in fact the second
dot becomes a Dot punctuation token and the trailing 3 a number token,
so the claimed token sequence is not produced. -/
theorem number_split_counterexample :
    tokenize "1.2.3" =
      some [⟨.Number, some "1.2"⟩, ⟨.Dot, none⟩, ⟨.Number, some "3"⟩, ⟨.EOF, none⟩] ∧
    tokenize "1.2.3" ≠
      some [⟨.Number, some "1.2"⟩, ⟨.Number, some ".3"⟩, ⟨.EOF, none⟩] := by
  constructor
  · simp [tokenize, tokenizeLoop, scanNumber, emit, dq, lbrace, rbrace]
  · simp [tokenize, tokenizeLoop, scanNumber, emit, dq, lbrace, rbrace]

/-- C3 amended: tokenizing 123 and 12.5 yields single number tokens with
those lexemes; tokenizing 1.2.3 yields the number token 1.2, then a Dot
punctuation token, then the number token 3, each sequence ending in the
end-of-input token. -/
theorem number_literal_scanning :
    tokenize "123" = some [⟨.Number, some "123"⟩, ⟨.EOF, none⟩] ∧
    tokenize "12.5" = some [⟨.Number, some "12.5"⟩, ⟨.EOF, none⟩] ∧
    tokenize "1.2.3" =
      some [⟨.Number, some "1.2"⟩, ⟨.Dot, none⟩, ⟨.Number, some "3"⟩, ⟨.EOF, none⟩] := by
  refine ⟨?_, ?_, ?_⟩ <;> simp [tokenize, tokenizeLoop, scanNumber, emit, dq, lbrace, rbrace]

/-- C4: whenever statement dispatch selects the while or for loop form,
Parser::statement never returns normally, and moreover no call of
Parser::statement ever returns a constructed Loop node. -/
theorem loops_never_complete :
    (∀ fuel ts i s j,
      ((current ts i).token_type = TokenType.While ∨ (current ts i).token_type = TokenType.For) →
      statement fuel ts i ≠ Except.ok (s, j)) ∧
    (∀ fuel ts i lt c b j, statement fuel ts i ≠ Except.ok (Statement.Loop lt c b, j)) := by
  constructor
  · intro fuel ts i s j h hok
    cases fuel with
    | zero => simp [statement] at hok
    | succ n =>
      simp only [statement] at hok
      rcases h with hw | hw <;> rw [hw] at hok <;> simp [bind_ok] at hok
  · exact fun fuel ts i lt c b j => statement_not_loop fuel ts i lt c b j

/-- C4 witness at a concrete input: a statement beginning with the while
keyword does not parse to a node. -/
theorem loops_never_complete_witness :
    statement 8 [⟨.While, none⟩, ⟨.Number, some "1"⟩, ⟨.EOF, none⟩] 0 ≠
      Except.ok (Statement.Expr (Expression.Variable "x"), 0) :=
  loops_never_complete.1 8 [⟨.While, none⟩, ⟨.Number, some "1"⟩, ⟨.EOF, none⟩] 0
    (Statement.Expr (Expression.Variable "x")) 0 (Or.inl rfl)

end Orange

namespace Orange

/-- C5: every successful tokenization is non-empty, ends in the
end-of-input token, contains no other end-of-input token, and the empty
source yields exactly the end-of-input token. -/
theorem tokenize_single_trailing_EOF :
    (∀ (s : String) (ts : List Token), tokenize s = some ts →
      ts ≠ [] ∧ ts.getLast? = some ⟨TokenType.EOF, none⟩ ∧
        ∀ t ∈ ts.dropLast, t.token_type ≠ TokenType.EOF) ∧
    tokenize "" = some [⟨TokenType.EOF, none⟩] := by
  constructor
  · intro s ts hts
    obtain ⟨pre, hpre, hne⟩ := tokenizeLoop_shape s.data ts hts
    subst hpre
    refine ⟨by simp, ?_, ?_⟩
    · simp [List.getLast?_concat]
    · simpa [List.dropLast_concat] using hne
  · simp [tokenize, tokenizeLoop]

/-- C5 witness at a concrete input. -/
theorem tokenize_single_trailing_EOF_witness :
    ([⟨TokenType.Plus, none⟩, ⟨TokenType.EOF, none⟩] : List Token) ≠ [] ∧
    ([⟨TokenType.Plus, none⟩, ⟨TokenType.EOF, none⟩] : List Token).getLast? =
      some ⟨TokenType.EOF, none⟩ ∧
    ∀ t ∈ ([⟨TokenType.Plus, none⟩, ⟨TokenType.EOF, none⟩] : List Token).dropLast,
      t.token_type ≠ TokenType.EOF :=
  tokenize_single_trailing_EOF.1 "+" [⟨TokenType.Plus, none⟩, ⟨TokenType.EOF, none⟩]
    (by simp [tokenize, tokenizeLoop, emit, dq, lbrace, rbrace])

end Orange

namespace Orange

/-- C6: parsing the tokens of let x = 1 + 2 * 3; yields exactly one
statement, a Declaration bound to x whose initializer is a plus node
whose right child is a multiplication node. -/
theorem declaration_respects_precedence :
    tokenize "let x = 1 + 2 * 3;" =
      some [⟨.Let, none⟩, ⟨.Identifier, some "x"⟩, ⟨.Equal, none⟩, ⟨.Number, some "1"⟩,
        ⟨.Plus, none⟩, ⟨.Number, some "2"⟩, ⟨.Asterisk, none⟩, ⟨.Number, some "3"⟩,
        ⟨.Semicolon, none⟩, ⟨.EOF, none⟩] ∧
    parse 32 [⟨.Let, none⟩, ⟨.Identifier, some "x"⟩, ⟨.Equal, none⟩, ⟨.Number, some "1"⟩,
        ⟨.Plus, none⟩, ⟨.Number, some "2"⟩, ⟨.Asterisk, none⟩, ⟨.Number, some "3"⟩,
        ⟨.Semicolon, none⟩, ⟨.EOF, none⟩] =
      Except.ok ([Statement.Declaration "x"
        (Expression.Binary (Expression.Literal (Literal.Number "1")) TokenType.Plus
          (Expression.Binary (Expression.Literal (Literal.Number "2")) TokenType.Asterisk
            (Expression.Literal (Literal.Number "3"))))], 9) := by
  constructor
  · simp [tokenize, tokenizeLoop, scanNumber, scanIdent, isIdentContinue, keywordToken,
      emit, dq, lbrace, rbrace]
  · rfl

/-- C7: parsing the tokens of let x = ; aborts with a syntax error
naming the semicolon as the token that starts no valid expression. -/
theorem missing_expression_rejected :
    tokenize "let x = ;" =
      some [⟨.Let, none⟩, ⟨.Identifier, some "x"⟩, ⟨.Equal, none⟩, ⟨.Semicolon, none⟩,
        ⟨.EOF, none⟩] ∧
    parse 32 [⟨.Let, none⟩, ⟨.Identifier, some "x"⟩, ⟨.Equal, none⟩, ⟨.Semicolon, none⟩,
        ⟨.EOF, none⟩] =
      Except.error (PErr.expectedExpression TokenType.Semicolon) := by
  constructor
  · simp [tokenize, tokenizeLoop, scanIdent, isIdentContinue, keywordToken,
      emit, dq, lbrace, rbrace]
  · rfl

/-- C8: an ampersand or pipe with no matching second character emits no
token and the scan continues with the following characters; in
particular the one-character sources yield only the end-of-input token. -/
theorem lone_amp_pipe_silently_dropped :
    (∀ rest : List Char, rest.head? ≠ some '&' →
      tokenizeLoop ('&' :: rest) = tokenizeLoop rest) ∧
    (∀ rest : List Char, rest.head? ≠ some '|' →
      tokenizeLoop ('|' :: rest) = tokenizeLoop rest) ∧
    tokenize "&" = some [⟨TokenType.EOF, none⟩] ∧
    tokenize "|" = some [⟨TokenType.EOF, none⟩] := by
  refine ⟨amp_dropped, pipe_dropped, ?_, ?_⟩ <;>
    simp [tokenize, tokenizeLoop, emit, dq, lbrace, rbrace]

/-- C8 witness at a concrete input. -/
theorem lone_amp_pipe_silently_dropped_witness :
    tokenizeLoop ('&' :: 'x' :: []) = tokenizeLoop ('x' :: []) :=
  lone_amp_pipe_silently_dropped.1 ['x'] (by decide)

end Orange

namespace Orange

/-- C9: over a non-empty token sequence the cursor only moves forward
and stays strictly inside the sequence: advance is the identity at the
last token, advance never moves backward, and every parsing operation
(statement, expression, whole-program parse) that returns normally from
an in-bounds cursor returns an in-bounds cursor no smaller than the one
it started from. -/
theorem cursor_monotone_and_bounded :
    (∀ (ts : List Token) (i : Nat), i + 1 = ts.length → advance ts i = i) ∧
    (∀ (ts : List Token) (i : Nat), i ≤ advance ts i) ∧
    (∀ fuel ts i r, i < ts.length →
      statement fuel ts i = Except.ok r → i ≤ r.2 ∧ r.2 < ts.length) ∧
    (∀ fuel ts i r, i < ts.length →
      expression fuel ts i = Except.ok r → i ≤ r.2 ∧ r.2 < ts.length) ∧
    (∀ fuel ts i r, i < ts.length →
      program fuel ts i = Except.ok r → i ≤ r.2 ∧ r.2 < ts.length) := by
  refine ⟨?_, advance_ge, ?_, ?_, ?_⟩
  · intro ts i h
    have hn : ¬(peek ts i).isSome = true := by
      simp only [peek, get?_isSome_iff]
      omega
    simp [advance, hn]
  · exact fun fuel => (parserMono fuel).statement_mono
  · exact fun fuel => (parserMono fuel).expression_mono
  · exact fun fuel => (parserMono fuel).program_mono

/-- C9 witness at a concrete input: advance is the identity at the last
token of a singleton sequence, and a concrete statement parse moves the
cursor from 0 to 2 inside a three-token sequence. -/
theorem cursor_monotone_and_bounded_witness :
    advance [⟨TokenType.EOF, none⟩] 0 = 0 ∧ ((0 : Nat) ≤ 2 ∧ 2 < 3) :=
  ⟨cursor_monotone_and_bounded.1 [⟨TokenType.EOF, none⟩] 0 rfl,
    cursor_monotone_and_bounded.2.2.1 8
      [⟨TokenType.Number, some "1"⟩, ⟨TokenType.Semicolon, none⟩, ⟨TokenType.EOF, none⟩] 0
      (Statement.Expr (Expression.Literal (Literal.Number "1")), 2) (by decide) rfl⟩

/-- C10: a string literal opened by a quote that is never closed is not
an error: the scan still emits a String token holding every character
after the opening quote, followed by the end-of-input token. -/
theorem unterminated_string_scanned (rest : List Char) (h : dq ∉ rest) :
    tokenizeLoop (dq :: rest) =
      some [⟨TokenType.String, some (String.mk rest)⟩, ⟨TokenType.EOF, none⟩] := by
  rw [tokenizeLoop]
  simp [dq, lbrace, rbrace, scanString_no_quote rest h, tokenizeLoop, emit]

/-- C10 witness at a concrete input. -/
theorem unterminated_string_scanned_witness :
    tokenizeLoop (dq :: 'a' :: 'b' :: 'c' :: []) =
      some [⟨TokenType.String, some "abc"⟩, ⟨TokenType.EOF, none⟩] :=
  unterminated_string_scanned ['a', 'b', 'c'] (by decide)

end Orange
